import Mathlib

/-!
Verification of the instagram-reel-slider content script.

This file gives a shallow embedding, in Lean, of the video-lifecycle
tracker and playback command logic of the script (the userscript and the
browser-extension content script in the repository contain the same
functions line for line; a single embedding covers both).

Modelling conventions:
* DOM float values (coordinates, times, rates, volumes) are rationals;
  a possibly-NaN value (video.duration) is `Option ℚ` with `none` for NaN.
* Video elements and DOM container elements are identified by natural
  numbers; the document layout the script reads (offsetParent, ancestor
  positions, dataset attributes, durations) is an `Env` of read-only
  functions.
* The tracker's mutable globals (the `enhanced` WeakSet, the `cleanupMap`
  WeakMap, the containers and listeners the script put into the document)
  form the state `St`.  WeakSet/WeakMap contents are association lists;
  their membership/get/set/delete semantics coincide on them.
* Event handler closures created by one `createControls` call are
  identified by the id of the container created by that call (each call
  creates fresh closures), so listener removal at cleanup is removal of
  the listeners carrying that tag.
-/

/-- Bounding client rect of an element: `top`, `left`, `width`, `height`;
`bottom` and `right` are derived as the layout engine guarantees. -/
structure Rect where
  top : ℚ
  left : ℚ
  width : ℚ
  height : ℚ
deriving Repr, DecidableEq

def Rect.bottom (r : Rect) : ℚ := r.top + r.height

def Rect.right (r : Rect) : ℚ := r.left + r.width

/-- window.innerWidth / window.innerHeight. -/
structure Viewport where
  innerWidth : ℚ
  innerHeight : ℚ
deriving Repr, DecidableEq

/-- A video element together with the bounding rect the layout engine
reports for it; `vid` is its identity, position in a list is document
order. -/
structure VideoEl where
  vid : Nat
  rect : Rect
deriving Repr, DecidableEq

/-- The `isInViewport` test of `getActiveVideo` (source:
`rect.top >= -rect.height && rect.left >= -rect.width &&
rect.bottom <= window.innerHeight + rect.height &&
rect.right <= window.innerWidth + rect.width`). -/
def isInViewport (vp : Viewport) (r : Rect) : Bool :=
  decide (r.top ≥ -r.height) && decide (r.left ≥ -r.width) &&
    decide (r.bottom ≤ vp.innerHeight + r.height) &&
    decide (r.right ≤ vp.innerWidth + r.width)

/-- The loop body test of `getActiveVideo`:
`isInViewport && rect.width > 100 && rect.height > 100`. -/
def vpCandidate (vp : Viewport) (v : VideoEl) : Bool :=
  isInViewport vp v.rect && decide (v.rect.width > 100) &&
    decide (v.rect.height > 100)

/-- Bounding-box area `rect.width * rect.height` used by the largest-video
fallback of `getActiveVideo`. -/
def area (v : VideoEl) : ℚ := v.rect.width * v.rect.height

/-- `getActiveVideo` (source lines 75-102 of the userscript): empty set →
null; a single video → that video; otherwise the first video in document
order passing `vpCandidate`, else
`videos.reduce((largest, video) => area video > area largest ? video : largest, videos[0])`. -/
def getActiveVideo (vp : Viewport) (videos : List VideoEl) : Option VideoEl :=
  match videos with
  | [] => none
  | [v] => some v
  | v0 :: v1 :: rest =>
    match (v0 :: v1 :: rest).find? (vpCandidate vp) with
    | some v => some v
    | none =>
      some ((v0 :: v1 :: rest).foldl
        (fun largest video => if area video > area largest then video else largest) v0)

/-- Maximum of `a` and the areas of the videos of `l` (used only to state
the specification-side selector). -/
def maxAreaFrom (a : ℚ) (l : List VideoEl) : ℚ :=
  l.foldl (fun m v => max m (area v)) a

/-- Specification-side selector, following the spec's words (section 4.1):
"if exactly one candidate, return it. Otherwise, scan in document order and
return the first candidate whose bounding box intersects the viewport (with
a one-box-size margin tolerance) AND whose width and height both exceed 100
layout units. If no candidate satisfies this, fall back to the candidate
with the largest bounding-box area (width × height), ties broken by first
occurrence."  The largest-area-first-occurrence clause is rendered as: the
first list entry whose area equals the maximum area. -/
def getActiveVideoSpec (vp : Viewport) (videos : List VideoEl) : Option VideoEl :=
  match videos with
  | [] => none
  | [v] => some v
  | v0 :: v1 :: rest =>
    match (v0 :: v1 :: rest).find? (vpCandidate vp) with
    | some v => some v
    | none =>
      (v0 :: v1 :: rest).find?
        (fun v => decide (area v = maxAreaFrom (area v0) (v1 :: rest)))

/-- State of the injected range input: its `value`, its `max` bound (an
unset range input defaults to 100), and the rendered fill percentage of
its background gradient (initially zero fill). -/
structure SliderSt where
  value : ℚ
  max : ℚ
  fillPct : ℚ
deriving Repr, DecidableEq

/-- `updateProgress` (source lines 124-142): if duration is a number > 0,
render `Math.max(0, Math.min(100, (cur / dur) * 100))` percent, sync
`slider.value` unless the slider is the active (focused) element, and set
`slider.max`; otherwise render the zero-progress fallback.  The null
guards on `video`/`slider` are outside this per-element model. -/
def updateProgress (dur : Option ℚ) (cur : ℚ) (sliderFocused : Bool)
    (sl : SliderSt) : SliderSt :=
  match dur with
  | some d =>
    if 0 < d then
      { sl with
        fillPct := max 0 (min 100 (cur / d * 100)),
        value := if sliderFocused then sl.value else cur,
        max := d }
    else { sl with fillPct := 0 }
  | none => { sl with fillPct := 0 }

/-- The constant `PLAYBACK_SPEEDS = [0.25, 0.5, 0.75, 1, 1.25, 1.5, 1.75, 2]`. -/
def PLAYBACK_SPEEDS : List ℚ := [1/4, 1/2, 3/4, 1, 5/4, 3/2, 7/4, 2]

/-- JavaScript `Array.prototype.indexOf`: index of the first element equal
to `x`, or −1 when absent. -/
def jsIndexOf : List ℚ → ℚ → Int
  | [], _ => -1
  | y :: ys, x =>
    if y = x then 0
    else if jsIndexOf ys x < 0 then -1 else jsIndexOf ys x + 1

/-- `PLAYBACK_SPEEDS[i]`; every index reaching it in the script is within
bounds (between 0 and length − 1), so the default is never read. -/
def speedAt (i : Int) : ℚ := PLAYBACK_SPEEDS.getD i.toNat 1

/-- Rate computed by `increaseSpeed`:
`currentSpeed = playbackRate || 1` (0 — the only falsy rate — becomes 1),
`nextIndex = Math.min(indexOf(currentSpeed) + 1, PLAYBACK_SPEEDS.length - 1)`. -/
def nextSpeed (rate : ℚ) : ℚ :=
  let currentSpeed := if rate = 0 then 1 else rate
  let currentIndex := jsIndexOf PLAYBACK_SPEEDS currentSpeed
  speedAt (min (currentIndex + 1) ((PLAYBACK_SPEEDS.length : Int) - 1))

/-- Rate computed by `decreaseSpeed`:
`prevIndex = Math.max(indexOf(currentSpeed) - 1, 0)`. -/
def prevSpeed (rate : ℚ) : ℚ :=
  let currentSpeed := if rate = 0 then 1 else rate
  let currentIndex := jsIndexOf PLAYBACK_SPEEDS currentSpeed
  speedAt (max (currentIndex - 1) 0)

/-- Playback attributes of a video element that the Command Dispatcher
reads and writes.  `duration` is `none` while it is NaN (no metadata). -/
structure VideoSt where
  currentTime : ℚ
  duration : Option ℚ
  volume : ℚ
  playbackRate : ℚ
deriving Repr, DecidableEq

/-- JavaScript `a || b` on a possibly-NaN number: NaN and 0 are falsy. -/
def jsOr (a : Option ℚ) (b : ℚ) : ℚ :=
  match a with
  | none => b
  | some x => if x = 0 then b else x

/-- `seekBackward`: `currentTime = Math.max(0, currentTime - seconds)`. -/
def seekBackward (seconds : ℚ) (v : VideoSt) : VideoSt :=
  { v with currentTime := max 0 (v.currentTime - seconds) }

/-- `seekForward`:
`currentTime = Math.min(duration || currentTime + seconds, currentTime + seconds)`. -/
def seekForward (seconds : ℚ) (v : VideoSt) : VideoSt :=
  { v with currentTime := min (jsOr v.duration (v.currentTime + seconds))
                            (v.currentTime + seconds) }

/-- `increaseVolume`: `volume = Math.min(1, volume + amount)`. -/
def increaseVolume (amount : ℚ) (v : VideoSt) : VideoSt :=
  { v with volume := min 1 (v.volume + amount) }

/-- `decreaseVolume`: `volume = Math.max(0, volume - amount)`. -/
def decreaseVolume (amount : ℚ) (v : VideoSt) : VideoSt :=
  { v with volume := max 0 (v.volume - amount) }

/-- `increaseSpeed`: sets `playbackRate` to `nextSpeed playbackRate`. -/
def increaseSpeed (v : VideoSt) : VideoSt :=
  { v with playbackRate := nextSpeed v.playbackRate }

/-- `decreaseSpeed`: sets `playbackRate` to `prevSpeed playbackRate`. -/
def decreaseSpeed (v : VideoSt) : VideoSt :=
  { v with playbackRate := prevSpeed v.playbackRate }

theorem jsIndexOf_of_not_mem (l : List ℚ) (x : ℚ) (h : x ∉ l) :
    jsIndexOf l x = -1 := by
  induction l with
  | nil => rfl
  | cons y ys ih =>
    have hy : ¬ y = x := fun e => h (e ▸ List.mem_cons_self y ys)
    have hys : x ∉ ys := fun e => h (List.mem_cons_of_mem y e)
    simp [jsIndexOf, hy, ih hys]

/-- Target of an event listener registered by `createControls`: the video
element, the overlay container, or the range input (slider).  Containers
and sliders are identified by the container id of the attach call that
created them. -/
inductive LTarget where
  | vid (v : Nat)
  | cont (cid : Nat)
  | slid (cid : Nat)
deriving Repr, DecidableEq

/-- One registered event listener: its target, the event name, and the
tag identifying the `createControls` call whose closures it uses. -/
structure Listener where
  tgt : LTarget
  ev : String
  tag : Nat
deriving Repr, DecidableEq

/-- An overlay container (`div.custom-seek-container`) present in the
document: its identity `cid`, the attachment-point element it was appended
to, the value of its `data-for-video` attribute (the script never sets
one, so it is `none` for every container the script creates), and the
state of the slider inside it. -/
structure Container where
  cid : Nat
  parentId : Nat
  forVideo : Option String
  slider : SliderSt
deriving Repr, DecidableEq

/-- The tracker's mutable state: the `enhanced` WeakSet (video ids), the
`cleanupMap` WeakMap as an association list video id ↦ container id of
the teardown closure's container, the overlay containers in the document,
the registered event listeners, and a counter supplying fresh container
identities. -/
structure St where
  enhanced : List Nat
  cleanups : List (Nat × Nat)
  containers : List Container
  listeners : List Listener
  nextId : Nat
deriving Repr, DecidableEq

/-- The tracker state at script start: nothing enhanced, no containers or
listeners injected. -/
def emptySt : St := ⟨[], [], [], [], 0⟩

/-- The read-only document environment a lifecycle run observes:
which ids are genuine HTMLVideoElements, each video's
`dataset.customId`, its `offsetParent`, the chain of ancestors strictly
between it and `document.body` with their computed `position` styles, its
`parentElement`, the id of `document.body`, its playback attributes, and
whether enhancing it raises an exception (a malformed video; the model
places the raise before any tracker mutation). -/
structure Env where
  isVideo : Nat → Bool
  customId : Nat → Option String
  offsetParent : Nat → Option Nat
  ancestors : Nat → List (Nat × String)
  parentElem : Nat → Option Nat
  bodyId : Nat
  duration : Nat → Option ℚ
  currentTime : Nat → ℚ
  throws : Nat → Bool

/-- Ancestor walk of `findAttachmentParent`: first element whose computed
position style is truthy and not the string value for static positioning. -/
def positionedAncestor : List (Nat × String) → Option Nat
  | [] => none
  | (e, pos) :: rest =>
    if pos ≠ "" ∧ pos ≠ "static" then some e else positionedAncestor rest

/-- `findAttachmentParent` (source lines 108-119): prefer `offsetParent`;
else walk ancestors up to `document.body` looking for a non-static
position; else `video.parentElement || document.body`. -/
def findAttachmentParent (env : Env) (v : Nat) : Option Nat :=
  match env.offsetParent v with
  | some p => some p
  | none =>
    match positionedAncestor (env.ancestors v) with
    | some p => some p
    | none =>
      match env.parentElem v with
      | some p => some p
      | none => some env.bodyId

/-- `parent.querySelector` for `.custom-seek-container`: the first overlay
container under the resolved attachment point in document order. -/
def existingContainer (s : St) (parent : Nat) : Option Container :=
  s.containers.find? (fun c => c.parentId == parent)

/-- The duplicate check of `createControls`:
`existing.dataset.forVideo === (video.dataset && video.dataset.customId)`.
An element's `dataset` is always truthy and a missing dataset entry is
`undefined`, so this is equality of the two optional string values —
true in particular when both attributes are absent
(`undefined === undefined`). -/
def linkedTo (env : Env) (v : Nat) : Option Container → Bool
  | none => false
  | some c => c.forVideo == env.customId v

/-- Slider state right after `createControls` builds it: `value = 0`, the
range-input default `max` of 100, zero fill; then
`if (!isNaN(video.duration)) slider.max = video.duration` and one
`updateProgress` pass (the fresh slider is not the focused element). -/
def initSlider (dur : Option ℚ) (cur : ℚ) : SliderSt :=
  let s0 : SliderSt := ⟨0, 100, 0⟩
  let s1 := match dur with
            | some d => { s0 with max := d }
            | none => s0
  updateProgress dur cur false s1

/-- The seven listeners one `createControls` call registers, in source
order: capture-phase `stopProp` on container click, container mousedown
and slider click, then the video `timeupdate`, `loadedmetadata`, `seeked`
handlers and the slider `input` handler.  All are tagged with the id of
the container created by the call. -/
def attachListeners (v cid : Nat) : List Listener :=
  [⟨.cont cid, "click", cid⟩, ⟨.cont cid, "mousedown", cid⟩,
   ⟨.slid cid, "click", cid⟩, ⟨.vid v, "timeupdate", cid⟩,
   ⟨.vid v, "loadedmetadata", cid⟩, ⟨.vid v, "seeked", cid⟩,
   ⟨.slid cid, "input", cid⟩]

/-- The constructing tail of `createControls`: build container and slider,
register the listeners, append the container under the attachment point,
run the initial sync, mark the video enhanced, and record the teardown
closure in `cleanupMap` (WeakMap `set` replaces any entry for the key). -/
def attachNew (env : Env) (v : Nat) (parent : Nat) (s : St) : St :=
  { s with
    containers := s.containers ++ [⟨s.nextId, parent, none,
      initSlider (env.duration v) (env.currentTime v)⟩],
    listeners := s.listeners ++ attachListeners v s.nextId,
    enhanced := v :: s.enhanced,
    cleanups := (v, s.nextId) :: s.cleanups.filter (fun p => p.1 != v),
    nextId := s.nextId + 1 }

/-- `createControls` (source lines 148-255): return unless a genuine
video element; return if already in the `enhanced` WeakSet; resolve the
attachment point (return if none); if a pre-existing overlay container
under it passes the `linkedTo` check, only mark the video enhanced;
otherwise construct the overlay. -/
def createControls (env : Env) (v : Nat) (s : St) : St :=
  if env.isVideo v = false then s
  else if v ∈ s.enhanced then s
  else
    match findAttachmentParent env v with
    | none => s
    | some parent =>
      if linkedTo env v (existingContainer s parent) then
        { s with enhanced := v :: s.enhanced }
      else attachNew env v parent s

/-- The teardown closure recorded for `(v, cid)`: remove the listeners
registered by that attach call, remove the container from its parent if
still attached, delete the video from the `enhanced` WeakSet, delete the
`cleanupMap` entry. -/
def runCleanup (v cid : Nat) (s : St) : St :=
  { s with
    listeners := s.listeners.filter (fun l => l.tag != cid),
    containers := s.containers.filter (fun c => c.cid != cid),
    enhanced := s.enhanced.filter (fun x => x != v),
    cleanups := s.cleanups.filter (fun p => p.1 != v) }

/-- `cleanupMap.get(video)`. -/
def lookupCleanup (s : St) (v : Nat) : Option Nat :=
  match s.cleanups.find? (fun p => p.1 == v) with
  | some p => some p.2
  | none => none

/-- `cleanupVideo` (source lines 260-264): run the recorded teardown
closure if one exists, else do nothing. -/
def cleanupVideo (v : Nat) (s : St) : St :=
  match lookupCleanup s v with
  | some cid => runCleanup v cid s
  | none => s

/-- ECMAScript `WeakMap.prototype` has only `get`, `set`, `has` and
`delete`; it has no `forEach`, so `cleanupMap.forEach` is `undefined`
(falsy) in the debug API. -/
def wmForEachExists : Bool := false

/-- `__instaScrubber.enhancedCount`:
`let n = 0; cleanupMap && cleanupMap.forEach && cleanupMap.forEach(() => n++); return n`.
The second conjunct is `undefined`, so the traversal never runs. -/
def enhancedCount (s : St) : Nat :=
  if wmForEachExists then s.cleanups.length else 0

/-- `__instaScrubber.cleanupAll`:
`cleanupMap.forEach && cleanupMap.forEach((fn) => fn && fn())`; the guard
is `undefined`, so no teardown closure is invoked. -/
def cleanupAll (s : St) : St :=
  if wmForEachExists then s.cleanups.foldl (fun t p => runCleanup p.1 p.2 t) s
  else s

/-- Per-video processing step of a batch: a video with `env.throws v`
raises (modelled as raising before any tracker mutation), any other video
runs `createControls`. -/
def createControlsE (env : Env) (v : Nat) (s : St) : Except Unit St :=
  if env.throws v then Except.error () else Except.ok (createControls env v s)

/-- The initial full-page pass (source lines 420-430):
`document.querySelectorAll('video').forEach((v) => { try { createControls(v) } catch (e) {} })`
— the try/catch sits inside the forEach, per video. -/
def initialPass (env : Env) (vids : List Nat) (s : St) : St :=
  vids.foldl (fun st v =>
    match createControlsE env v st with
    | Except.ok st2 => st2
    | Except.error _ => st) s

/-- An inserted element node seen by the mutation observer: either itself
a VIDEO tag, or an element whose descendant videos are those returned by
`node.querySelectorAll('video')` in document order. -/
inductive DomNode where
  | videoNode (v : Nat)
  | elemNode (vids : List Nat)
deriving Repr, DecidableEq

/-- `vids.forEach((v) => createControls(v))` inside the observer's single
per-node try block: an exception thrown for one descendant video
propagates out of the forEach, so processing of the remaining descendants
of the same node stops (state changes already made are kept). -/
def attachDescendants (env : Env) : List Nat → St → St
  | [], s => s
  | v :: rest, s =>
    match createControlsE env v s with
    | Except.ok s2 => attachDescendants env rest s2
    | Except.error _ => s

/-- Processing of one added node in the observer callback (source lines
437-451): the try/catch wraps the whole node, including the forEach over
its descendant videos. -/
def processAddedNode (env : Env) (s : St) (n : DomNode) : St :=
  match n with
  | DomNode.videoNode v =>
    match createControlsE env v s with
    | Except.ok s2 => s2
    | Except.error _ => s
  | DomNode.elemNode vids => attachDescendants env vids s

/-- The added-nodes half of one observer batch: nodes in enumeration
order, each isolated by its own try/catch. -/
def processAddedNodes (env : Env) (nodes : List DomNode) (s : St) : St :=
  nodes.foldl (processAddedNode env) s

/-- Tracker invariant holding for all states the script can reach:
container, teardown and listener tags are below the freshness counter,
`cleanupMap` keys are distinct, every teardown record's container is in
the document exactly once, and every video with a teardown record is in
the `enhanced` WeakSet. -/
@[reducible] def WF (s : St) : Prop :=
  (∀ c ∈ s.containers, c.cid < s.nextId) ∧
  (∀ p ∈ s.cleanups, p.2 < s.nextId) ∧
  (∀ l ∈ s.listeners, l.tag < s.nextId) ∧
  (s.cleanups.map Prod.fst).Nodup ∧
  (∀ p ∈ s.cleanups, s.containers.countP (fun c => c.cid == p.2) = 1) ∧
  (∀ p ∈ s.cleanups, p.1 ∈ s.enhanced)

/-- Document with two genuine videos 1 and 2 sharing offset parent 100,
neither carrying a `data-custom-id`; nothing throws. -/
def envShared : Env :=
  { isVideo := fun _ => true
    customId := fun _ => none
    offsetParent := fun _ => some 100
    ancestors := fun _ => []
    parentElem := fun _ => none
    bodyId := 0
    duration := fun _ => none
    currentTime := fun _ => 0
    throws := fun _ => false }

/-- State after enhancing video 1 on the empty tracker. -/
def sA : St := createControls envShared 1 emptySt

/-- State after then enhancing video 2 (which shares video 1's attachment
parent). -/
def sB : St := createControls envShared 2 sA

/-- Document where every video has its own offset parent and enhancing
video 1 raises an exception. -/
def envThrow : Env :=
  { envShared with
    offsetParent := fun v => some (10 * v + 10)
    throws := fun v => v == 1 }

/-- A video at rate 1 (concrete witness input). -/
def vOne : VideoSt := ⟨0, none, 1, 1⟩

/-- A video at rate 0.25 (concrete witness input). -/
def vQuarter : VideoSt := ⟨0, none, 1, 1/4⟩

/-- A video at the off-list rate 3 (concrete witness input). -/
def vThree : VideoSt := ⟨0, none, 1, 3⟩

/-- A video at rate 0 (concrete witness input). -/
def vZero : VideoSt := ⟨0, none, 1, 0⟩

/-- A video mid-playback: currentTime 30, duration 100, volume ½
(concrete witness input). -/
def vMid : VideoSt := ⟨30, some 100, 1/2, 1⟩

/-- A freshly created slider (concrete witness input). -/
def sl0 : SliderSt := ⟨0, 100, 0⟩

theorem le_maxAreaFrom (l : List VideoEl) : ∀ q : ℚ, q ≤ maxAreaFrom q l := by
  induction l with
  | nil => intro q; exact le_refl q
  | cons w t ih =>
    intro q
    exact le_trans (le_max_left q (area w)) (ih (max q (area w)))

theorem find?_maxArea_eq_foldl : ∀ (l : List VideoEl) (a : VideoEl),
    (a :: l).find? (fun v => decide (area v = maxAreaFrom (area a) l)) =
      some (l.foldl
        (fun largest video => if area video > area largest then video else largest) a) := by
  intro l
  induction l with
  | nil =>
    intro a
    simp [maxAreaFrom, List.find?]
  | cons w t ih =>
    intro a
    by_cases h : area a < area w
    · have hmax : max (area a) (area w) = area w := max_eq_right h.le
      have hM : maxAreaFrom (area a) (w :: t) = maxAreaFrom (area w) t := by
        show maxAreaFrom (max (area a) (area w)) t = _
        rw [hmax]
      have hstep : (if area w > area a then w else a) = w := if_pos h
      have hane : ¬ (area a = maxAreaFrom (area a) (w :: t)) := by
        rw [hM]
        exact ne_of_lt (lt_of_lt_of_le h (le_maxAreaFrom t (area w)))
      calc (a :: w :: t).find? (fun v => decide (area v = maxAreaFrom (area a) (w :: t)))
          = (w :: t).find? (fun v => decide (area v = maxAreaFrom (area a) (w :: t))) := by
            refine List.find?_cons_of_neg _ ?_
            simpa using hane
        _ = (w :: t).find? (fun v => decide (area v = maxAreaFrom (area w) t)) := by rw [hM]
        _ = some (t.foldl
              (fun largest video => if area video > area largest then video else largest) w) :=
            ih w
        _ = some ((w :: t).foldl
              (fun largest video => if area video > area largest then video else largest) a) := by
            rw [List.foldl_cons, hstep]
    · have hwa : area w ≤ area a := le_of_not_lt h
      have hmax : max (area a) (area w) = area a := max_eq_left hwa
      have hM : maxAreaFrom (area a) (w :: t) = maxAreaFrom (area a) t := by
        show maxAreaFrom (max (area a) (area w)) t = _
        rw [hmax]
      have hstep : (if area w > area a then w else a) = a := if_neg h
      have hfold : (w :: t).foldl
          (fun largest video => if area video > area largest then video else largest) a =
          t.foldl (fun largest video => if area video > area largest then video else largest) a := by
        rw [List.foldl_cons, hstep]
      rw [hfold, hM]
      by_cases ha : area a = maxAreaFrom (area a) t
      · have hIH := ih a
        rw [List.find?_cons_of_pos _ (by simpa using ha)] at hIH
        rw [List.find?_cons_of_pos _ (by simpa using ha)]
        exact hIH
      · have hwne : ¬ (area w = maxAreaFrom (area a) t) := by
          intro hw
          exact ha (le_antisymm (le_maxAreaFrom t (area a))
            (hw ▸ hwa))
        have hIH := ih a
        rw [List.find?_cons_of_neg _ (by simpa using ha)] at hIH
        rw [List.find?_cons_of_neg _ (by simpa using ha),
            List.find?_cons_of_neg _ (by simpa using hwne)]
        exact hIH

/-- C6: `getActiveVideo` selects the active video as specified: none for
an empty video set, the sole video when exactly one exists, otherwise the
first video in document order that intersects the viewport with a
one-box-size margin and has width and height both over 100, and if no
video passes that test, the video with the largest width × height area,
ties broken by first occurrence. -/
theorem getActiveVideo_meets_spec (vp : Viewport) (videos : List VideoEl) :
    getActiveVideo vp videos = getActiveVideoSpec vp videos := by
  cases videos with
  | nil => rfl
  | cons v0 tl =>
    cases tl with
    | nil => rfl
    | cons v1 rest =>
      simp only [getActiveVideo, getActiveVideoSpec]
      cases hf : (v0 :: v1 :: rest).find? (vpCandidate vp) with
      | some v => rfl
      | none =>
        simp only []
        rw [List.foldl_cons, ite_self]
        exact (find?_maxArea_eq_foldl (v1 :: rest) v0).symm

theorem increaseSpeed_rate (v : VideoSt) :
    (increaseSpeed v).playbackRate = nextSpeed v.playbackRate := rfl

theorem decreaseSpeed_rate (v : VideoSt) :
    (decreaseSpeed v).playbackRate = prevSpeed v.playbackRate := rfl

/-- C7: speed cycling is clamped with no wraparound: from playbackRate 1,
five consecutive `increaseSpeed` calls produce 1.25, 1.5, 1.75, 2, 2, and
`decreaseSpeed` from 0.25 stays at 0.25. -/
theorem speed_cycling_clamped (v : VideoSt) (h : v.playbackRate = 1) :
    (increaseSpeed v).playbackRate = 5/4 ∧
    (increaseSpeed (increaseSpeed v)).playbackRate = 3/2 ∧
    (increaseSpeed (increaseSpeed (increaseSpeed v))).playbackRate = 7/4 ∧
    (increaseSpeed (increaseSpeed (increaseSpeed (increaseSpeed v)))).playbackRate = 2 ∧
    (increaseSpeed (increaseSpeed (increaseSpeed (increaseSpeed
      (increaseSpeed v))))).playbackRate = 2 ∧
    (∀ w : VideoSt, w.playbackRate = 1/4 → (decreaseSpeed w).playbackRate = 1/4) := by
  have h1 : (increaseSpeed v).playbackRate = 5/4 := by
    rw [increaseSpeed_rate]
    rw [h]
    norm_num [nextSpeed, prevSpeed, jsIndexOf, PLAYBACK_SPEEDS, speedAt]
    try rfl
  have h2 : (increaseSpeed (increaseSpeed v)).playbackRate = 3/2 := by
    rw [increaseSpeed_rate]
    rw [h1]
    norm_num [nextSpeed, prevSpeed, jsIndexOf, PLAYBACK_SPEEDS, speedAt]
    try rfl
  have h3 : (increaseSpeed (increaseSpeed (increaseSpeed v))).playbackRate = 7/4 := by
    rw [increaseSpeed_rate]
    rw [h2]
    norm_num [nextSpeed, prevSpeed, jsIndexOf, PLAYBACK_SPEEDS, speedAt]
    try rfl
  have h4 : (increaseSpeed (increaseSpeed (increaseSpeed
      (increaseSpeed v)))).playbackRate = 2 := by
    rw [increaseSpeed_rate]
    rw [h3]
    norm_num [nextSpeed, prevSpeed, jsIndexOf, PLAYBACK_SPEEDS, speedAt]
    try rfl
  have h5 : (increaseSpeed (increaseSpeed (increaseSpeed (increaseSpeed
      (increaseSpeed v))))).playbackRate = 2 := by
    rw [increaseSpeed_rate]
    rw [h4]
    norm_num [nextSpeed, prevSpeed, jsIndexOf, PLAYBACK_SPEEDS, speedAt]
    try rfl
  refine ⟨h1, h2, h3, h4, h5, fun w hw => ?_⟩
  show prevSpeed w.playbackRate = 1/4
  rw [hw]
  norm_num [nextSpeed, prevSpeed, jsIndexOf, PLAYBACK_SPEEDS, speedAt]
  try rfl

theorem speed_cycling_clamped_witness :
    (increaseSpeed vOne).playbackRate = 5/4 ∧
    (decreaseSpeed vQuarter).playbackRate = 1/4 := by
  have h := speed_cycling_clamped vOne rfl
  exact ⟨h.1, h.2.2.2.2.2 vQuarter rfl⟩

/-- C10: for a nonzero playbackRate outside PLAYBACK_SPEEDS both
`increaseSpeed` and `decreaseSpeed` set the rate to 0.25 (indexOf returns
−1, which clamps to index 0), and a playbackRate of 0 is treated as 1
before the lookup (so increase gives 1.25 and decrease gives 0.75). -/
theorem speed_offlist_resets :
    (∀ v : VideoSt, v.playbackRate ≠ 0 → v.playbackRate ∉ PLAYBACK_SPEEDS →
      (increaseSpeed v).playbackRate = 1/4 ∧ (decreaseSpeed v).playbackRate = 1/4) ∧
    (∀ w : VideoSt, w.playbackRate = 0 →
      (increaseSpeed w).playbackRate = 5/4 ∧ (decreaseSpeed w).playbackRate = 3/4) := by
  constructor
  · intro v hz hm
    have hidx : jsIndexOf PLAYBACK_SPEEDS v.playbackRate = -1 :=
      jsIndexOf_of_not_mem _ _ hm
    constructor
    · show nextSpeed v.playbackRate = 1/4
      unfold nextSpeed
      simp only [if_neg hz, hidx]
      norm_num [speedAt, PLAYBACK_SPEEDS]
      try rfl
    · show prevSpeed v.playbackRate = 1/4
      unfold prevSpeed
      simp only [if_neg hz, hidx]
      norm_num [speedAt, PLAYBACK_SPEEDS]
      try rfl
  · intro w hw
    constructor
    · show nextSpeed w.playbackRate = 5/4
      rw [hw]
      norm_num [nextSpeed, prevSpeed, jsIndexOf, PLAYBACK_SPEEDS, speedAt]
      try rfl
    · show prevSpeed w.playbackRate = 3/4
      rw [hw]
      norm_num [nextSpeed, prevSpeed, jsIndexOf, PLAYBACK_SPEEDS, speedAt]
      try rfl

theorem speed_offlist_resets_witness :
    (increaseSpeed vThree).playbackRate = 1/4 ∧
    (decreaseSpeed vThree).playbackRate = 1/4 ∧
    (increaseSpeed vZero).playbackRate = 5/4 := by
  have h := speed_offlist_resets
  have hz : vThree.playbackRate ≠ 0 := by norm_num [vThree]
  have hm : vThree.playbackRate ∉ PLAYBACK_SPEEDS := by
    norm_num [vThree, PLAYBACK_SPEEDS]
  exact ⟨(h.1 vThree hz hm).1, (h.1 vThree hz hm).2, (h.2 vZero rfl).1⟩

/-- C8: the progress renderer computes a clamped fill fraction: for
duration a number > 0 the rendered fill percentage is
currentTime/duration × 100 clamped to [0,100]; for duration 0, negative
or NaN it is 0%.  `updateProgress` is a total function, so no error is
raised in either case. -/
theorem updateProgress_fill (d cur : ℚ) (f : Bool) (sl : SliderSt) :
    (0 < d →
      (updateProgress (some d) cur f sl).fillPct = max 0 (min 100 (cur / d * 100))) ∧
    (d ≤ 0 → (updateProgress (some d) cur f sl).fillPct = 0) ∧
    (updateProgress none cur f sl).fillPct = 0 := by
  refine ⟨fun h => ?_, fun h => ?_, rfl⟩
  · simp [updateProgress, h]
  · simp [updateProgress, not_lt.mpr h]

theorem updateProgress_fill_witness :
    (updateProgress (some 100) 25 false sl0).fillPct = 25 ∧
    (updateProgress (some 0) 25 false sl0).fillPct = 0 ∧
    (updateProgress none 25 false sl0).fillPct = 0 := by
  have h1 := (updateProgress_fill 100 25 false sl0).1 (by norm_num)
  have h2 := (updateProgress_fill 0 25 false sl0).2.1 (le_refl 0)
  have h3 := (updateProgress_fill 0 25 false sl0).2.2
  refine ⟨?_, h2, h3⟩
  rw [h1]; norm_num

/-- C9: for an active video with positive duration and currentTime within
bounds, `seekBackward` sets currentTime to max(0, currentTime − seconds)
and `seekForward` to min(duration, currentTime + seconds), both staying
in [0, duration]; `increaseVolume`/`decreaseVolume` clamp volume ± amount
to [0, 1]. -/
theorem dispatcher_clamps (v : VideoSt) (d seconds amount : ℚ)
    (hdur : v.duration = some d) (hd : 0 < d)
    (ht0 : 0 ≤ v.currentTime) (ht1 : v.currentTime ≤ d)
    (hs : 0 ≤ seconds) (ha : 0 ≤ amount)
    (hv0 : 0 ≤ v.volume) (hv1 : v.volume ≤ 1) :
    (seekBackward seconds v).currentTime = max 0 (v.currentTime - seconds) ∧
    0 ≤ (seekBackward seconds v).currentTime ∧
    (seekBackward seconds v).currentTime ≤ d ∧
    (seekForward seconds v).currentTime = min d (v.currentTime + seconds) ∧
    0 ≤ (seekForward seconds v).currentTime ∧
    (seekForward seconds v).currentTime ≤ d ∧
    (increaseVolume amount v).volume = min 1 (v.volume + amount) ∧
    0 ≤ (increaseVolume amount v).volume ∧
    (increaseVolume amount v).volume ≤ 1 ∧
    (decreaseVolume amount v).volume = max 0 (v.volume - amount) ∧
    0 ≤ (decreaseVolume amount v).volume ∧
    (decreaseVolume amount v).volume ≤ 1 := by
  have hfw : (seekForward seconds v).currentTime = min d (v.currentTime + seconds) := by
    show min (jsOr v.duration (v.currentTime + seconds)) (v.currentTime + seconds) =
      min d (v.currentTime + seconds)
    rw [hdur]
    simp [jsOr, ne_of_gt hd]
  refine ⟨rfl, le_max_left 0 _, max_le hd.le (by linarith), hfw, ?_, ?_,
    rfl, le_min (by norm_num) (by linarith), min_le_left 1 _,
    rfl, le_max_left 0 _, max_le (by norm_num) (by linarith)⟩
  · rw [hfw]; exact le_min hd.le (by linarith)
  · rw [hfw]; exact min_le_left d _

theorem dispatcher_clamps_witness :
    0 ≤ (seekBackward 5 vMid).currentTime ∧
    (seekForward 5 vMid).currentTime ≤ 100 ∧
    (increaseVolume (1/10) vMid).volume ≤ 1 := by
  have h := dispatcher_clamps vMid 100 5 (1/10) rfl (by norm_num) (by norm_num [vMid])
    (by norm_num [vMid]) (by norm_num) (by norm_num) (by norm_num [vMid]) (by norm_num [vMid])
  exact ⟨h.2.1, h.2.2.2.2.2.1, h.2.2.2.2.2.2.2.2.1⟩

theorem createControls_of_mem (env : Env) (v : Nat) (s : St) (h : v ∈ s.enhanced) :
    createControls env v s = s := by
  simp [createControls, h]

theorem createControls_construct (env : Env) (v : Nat) (s : St) (parent : Nat)
    (h1 : env.isVideo v = true) (h2 : v ∉ s.enhanced)
    (h3 : findAttachmentParent env v = some parent)
    (h4 : linkedTo env v (existingContainer s parent) = false) :
    createControls env v s = attachNew env v parent s := by
  simp [createControls, h1, h2, h3, h4]

theorem lookupCleanup_attachNew (env : Env) (v parent : Nat) (s : St) :
    lookupCleanup (attachNew env v parent s) v = some s.nextId := by
  have hfind : ((v, s.nextId) :: s.cleanups.filter (fun p => p.1 != v)).find?
      (fun p => p.1 == v) = some (v, s.nextId) :=
    List.find?_cons_of_pos _ (by simp)
  simp [lookupCleanup, attachNew, hfind]

theorem countP_key_eq_one (v : Nat) : ∀ (l : List (Nat × Nat)),
    (l.map Prod.fst).Nodup → ∀ pr, l.find? (fun p => p.1 == v) = some pr →
      l.countP (fun p => p.1 == v) = 1 := by
  intro l
  induction l with
  | nil =>
    intro _ pr h
    simp [List.find?] at h
  | cons q t ih =>
    intro hnd pr h
    rw [List.map_cons, List.nodup_cons] at hnd
    by_cases hq : (q.1 == v) = true
    · rw [List.countP_cons_of_pos _ _ (by exact hq)]
      have ht : t.countP (fun p => p.1 == v) = 0 := by
        rw [List.countP_eq_zero]
        intro p hp hpv
        have h1 : p.1 = v := by simpa [beq_iff_eq] using hpv
        have h2 : q.1 = v := by simpa [beq_iff_eq] using hq
        exact hnd.1 (by
          have : p.1 ∈ t.map Prod.fst := List.mem_map_of_mem Prod.fst hp
          rwa [h1, ← h2] at this)
      rw [ht]
    · rw [List.countP_cons_of_neg _ _ (by exact hq)]
      rw [List.find?_cons_of_neg _ (by exact hq)] at h
      exact ih hnd.2 pr h

theorem counts_of_WF (s : St) (hwf : WF s) (v cid : Nat)
    (h : lookupCleanup s v = some cid) :
    s.cleanups.countP (fun p => p.1 == v) = 1 ∧
    s.containers.countP (fun c => c.cid == cid) = 1 := by
  obtain ⟨hwf1, hwf2, hwf3, hwf4, hwf5, hwf6⟩ := hwf
  cases hf : s.cleanups.find? (fun p => p.1 == v) with
  | none => simp [lookupCleanup, hf] at h
  | some pr =>
    have h2 : pr.2 = cid := by simpa [lookupCleanup, hf] using h
    refine ⟨countP_key_eq_one v s.cleanups hwf4 pr hf, ?_⟩
    have hmem := List.mem_of_find?_eq_some hf
    have := hwf5 pr hmem
    rwa [h2] at this

theorem cleanup_after_attachNew (env : Env) (v parent : Nat) (s : St)
    (hc : ∀ c ∈ s.containers, c.cid < s.nextId)
    (hl : ∀ l ∈ s.listeners, l.tag < s.nextId)
    (hv : v ∉ s.enhanced)
    (hkn : s.cleanups.find? (fun p => p.1 == v) = none) :
    cleanupVideo v (attachNew env v parent s) = { s with nextId := s.nextId + 1 } := by
  have hlook : lookupCleanup (attachNew env v parent s) v = some s.nextId :=
    lookupCleanup_attachNew env v parent s
  have hkfilter : s.cleanups.filter (fun p => p.1 != v) = s.cleanups := by
    apply List.filter_eq_self.mpr
    intro p hp
    have h1 : ¬ (p.1 = v) := by
      simpa [beq_iff_eq] using (List.find?_eq_none.mp hkn p hp)
    simpa [bne_iff_ne] using h1
  have hLfilter : s.listeners.filter (fun l => l.tag != s.nextId) = s.listeners := by
    apply List.filter_eq_self.mpr
    intro l hlm
    simpa [bne_iff_ne] using Nat.ne_of_lt (hl l hlm)
  have hCfilter : s.containers.filter (fun c => c.cid != s.nextId) = s.containers := by
    apply List.filter_eq_self.mpr
    intro c hcm
    simpa [bne_iff_ne] using Nat.ne_of_lt (hc c hcm)
  have hEfilter : s.enhanced.filter (fun x => x != v) = s.enhanced := by
    apply List.filter_eq_self.mpr
    intro x hx
    simp only [bne_iff_ne, ne_eq]
    intro e
    exact hv (e ▸ hx)
  simp only [cleanupVideo, hlook]
  simp [runCleanup, attachNew, List.filter_append,
    hLfilter, hCfilter, hEfilter, hkfilter, attachListeners]

/-- C1 (amended): after an attach call that marked the video Enhanced,
a second `createControls` call is a no-op returning the state unchanged —
no second overlay container, no additional event listeners, no second
teardown record; moreover whenever the state after the attach holds a
teardown record for the video (the constructing path), that record and
the overlay container it refers to are unique.  (The counterexample shows
the pre-existing-linked-container path marks the video Enhanced while
creating no teardown record at all, so "exactly one teardown record" does
not hold for every successful attach.) -/
theorem createControls_idempotent (env : Env) (v : Nat) (s : St) (hwf : WF s)
    (hsucc : v ∈ (createControls env v s).enhanced) :
    createControls env v (createControls env v s) = createControls env v s ∧
    ∀ cid, lookupCleanup (createControls env v s) v = some cid →
      (createControls env v s).cleanups.countP (fun p => p.1 == v) = 1 ∧
      (createControls env v s).containers.countP (fun c => c.cid == cid) = 1 := by
  constructor
  · exact createControls_of_mem env v _ hsucc
  · intro cid hcid
    by_cases hiv : env.isVideo v = false
    · have hs : createControls env v s = s := by simp [createControls, hiv]
      rw [hs] at hcid ⊢
      exact counts_of_WF s hwf v cid hcid
    · by_cases hmem : v ∈ s.enhanced
      · have hs : createControls env v s = s := createControls_of_mem env v s hmem
        rw [hs] at hcid ⊢
        exact counts_of_WF s hwf v cid hcid
      · cases hP : findAttachmentParent env v with
        | none =>
          have hs : createControls env v s = s := by
            simp [createControls, hiv, hmem, hP]
          rw [hs] at hcid ⊢
          exact counts_of_WF s hwf v cid hcid
        | some parent =>
          by_cases hlk : linkedTo env v (existingContainer s parent) = true
          · have hs : createControls env v s = { s with enhanced := v :: s.enhanced } := by
              simp [createControls, hiv, hmem, hP, hlk]
            rw [hs] at hcid ⊢
            exact counts_of_WF s hwf v cid hcid
          · have hlk' : linkedTo env v (existingContainer s parent) = false := by
              simpa using hlk
            have hs : createControls env v s = attachNew env v parent s :=
              createControls_construct env v s parent (by simpa using hiv) hmem hP hlk'
            rw [hs] at hcid ⊢
            rw [lookupCleanup_attachNew] at hcid
            have hcid2 : cid = s.nextId := (Option.some.inj hcid).symm
            subst hcid2
            obtain ⟨hwf1, hwf2, hwf3, hwf4, hwf5, hwf6⟩ := hwf
            constructor
            · have hzero : (s.cleanups.filter (fun p => p.1 != v)).countP
                  (fun p => p.1 == v) = 0 := by
                rw [List.countP_eq_zero]
                intro p hp hpv
                have h1 := (List.mem_filter.mp hp).2
                rw [show p.1 = v from by simpa [beq_iff_eq] using hpv] at h1
                simp at h1
              simp [attachNew, List.countP_cons_of_pos, hzero]
            · have hzero : s.containers.countP (fun c => c.cid == s.nextId) = 0 := by
                rw [List.countP_eq_zero]
                intro c hcm
                simpa [beq_iff_eq] using Nat.ne_of_lt (hwf1 c hcm)
              simp [attachNew, List.countP_append, hzero]

theorem createControls_idempotent_witness :
    createControls envShared 1 sA = sA ∧
    sA.cleanups.countP (fun p => p.1 == 1) = 1 ∧
    sA.containers.countP (fun c => c.cid == 0) = 1 := by
  have h := createControls_idempotent envShared 1 emptySt (by decide) (by decide)
  exact ⟨h.1, (h.2 0 (by decide)).1, (h.2 0 (by decide)).2⟩

/-- C1 counterexample: in a document where videos 1 and 2 share the same
attachment parent and neither carries a dataset id, attaching video 1 and
then video 2 leaves video 2 Enhanced by the linked-container check
(`undefined === undefined`): the second attach of video 2 is a no-op, yet
video 2 has zero teardown records and the document still holds only video
1's container — refuting "exactly one overlay container and one teardown
record exist for that video" after a successful attach. -/
theorem createControls_idempotent_counterexample :
    2 ∈ sB.enhanced ∧
    createControls envShared 2 sB = sB ∧
    sB.cleanups.countP (fun p => p.1 == 2) = 0 ∧
    sB.containers = sA.containers := by decide

/-- C2 (amended): when an attach call records a teardown action (the
constructing path), `cleanupVideo` right after it removes the overlay
container from the document, the listeners it registered, the video's
Enhancement Set membership and the teardown record — restoring the prior
state except for the already-consumed freshness counter — and a
subsequent attach succeeds again as on a never-enhanced video.  (The
counterexample shows the pre-existing-linked-container path breaks the
round trip as universally claimed: detach then finds no record and the
video stays Enhanced.) -/
theorem attach_detach_roundtrip (env : Env) (v : Nat) (s : St) (cid : Nat)
    (hwf : WF s) (hv : v ∉ s.enhanced)
    (hrec : lookupCleanup (createControls env v s) v = some cid) :
    cleanupVideo v (createControls env v s) = { s with nextId := s.nextId + 1 } ∧
    v ∈ (createControls env v (cleanupVideo v (createControls env v s))).enhanced ∧
    (lookupCleanup (createControls env v (cleanupVideo v (createControls env v s)))
      v).isSome = true := by
  obtain ⟨hwf1, hwf2, hwf3, hwf4, hwf5, hwf6⟩ := hwf
  have hkn : s.cleanups.find? (fun p => p.1 == v) = none := by
    cases hf : s.cleanups.find? (fun p => p.1 == v) with
    | none => rfl
    | some p =>
      exfalso
      have hp := List.mem_of_find?_eq_some hf
      have hp1 : p.1 = v := by simpa [beq_iff_eq] using List.find?_some hf
      exact hv (hp1 ▸ hwf6 p hp)
  have hlz : lookupCleanup s v = none := by simp [lookupCleanup, hkn]
  by_cases hiv : env.isVideo v = false
  · exfalso
    have hs : createControls env v s = s := by simp [createControls, hiv]
    rw [hs, hlz] at hrec
    exact Option.noConfusion hrec
  · cases hP : findAttachmentParent env v with
    | none =>
      exfalso
      have hs : createControls env v s = s := by simp [createControls, hiv, hv, hP]
      rw [hs, hlz] at hrec
      exact Option.noConfusion hrec
    | some parent =>
      by_cases hlk : linkedTo env v (existingContainer s parent) = true
      · exfalso
        have hs : createControls env v s = { s with enhanced := v :: s.enhanced } := by
          simp [createControls, hiv, hv, hP, hlk]
        rw [hs] at hrec
        have hlz2 : lookupCleanup { s with enhanced := v :: s.enhanced } v = none := hlz
        rw [hlz2] at hrec
        exact Option.noConfusion hrec
      · have hlk' : linkedTo env v (existingContainer s parent) = false := by
          simpa using hlk
        have hcc : createControls env v s = attachNew env v parent s :=
          createControls_construct env v s parent (by simpa using hiv) hv hP hlk'
        have hs2 : cleanupVideo v (createControls env v s) =
            { s with nextId := s.nextId + 1 } := by
          rw [hcc]
          exact cleanup_after_attachNew env v parent s hwf1 hwf3 hv hkn
        have hv2 : v ∉ ({ s with nextId := s.nextId + 1 } : St).enhanced := hv
        have hlk2 : linkedTo env v
            (existingContainer { s with nextId := s.nextId + 1 } parent) = false := hlk'
        have hcc2 : createControls env v { s with nextId := s.nextId + 1 } =
            attachNew env v parent { s with nextId := s.nextId + 1 } :=
          createControls_construct env v _ parent (by simpa using hiv) hv2 hP hlk2
        refine ⟨hs2, ?_, ?_⟩
        · rw [hs2, hcc2]
          simp [attachNew]
        · rw [hs2, hcc2, lookupCleanup_attachNew]
          rfl

theorem attach_detach_roundtrip_witness :
    cleanupVideo 1 sA = { emptySt with nextId := 1 } ∧
    1 ∈ (createControls envShared 1 (cleanupVideo 1 sA)).enhanced := by
  have h := attach_detach_roundtrip envShared 1 emptySt 0 (by decide) (by decide)
    (by decide)
  exact ⟨h.1, h.2.1⟩

/-- C2 counterexample: with videos 1 and 2 sharing an attachment parent
and no dataset ids, attach(2) after attach(1) leaves video 2 Enhanced via
the linked-container check without a teardown record, so detach(2) is a
no-op: video 2 stays in the Enhancement Set and the subsequent attach(2)
is a no-op rather than succeeding as on a new video — refuting the
round-trip property as universally stated. -/
theorem attach_detach_roundtrip_counterexample :
    2 ∈ sB.enhanced ∧
    cleanupVideo 2 sB = sB ∧
    2 ∈ (cleanupVideo 2 sB).enhanced ∧
    createControls envShared 2 (cleanupVideo 2 sB) = sB := by decide

/-- C4: the code violates the claim.  The script never writes
`data-for-video` on containers or `data-custom-id` on videos, and its
duplicate check compares the two dataset reads with `===`, so a video
with no assigned id is treated as "linked" to a pre-existing container
with no stored id (`undefined === undefined` is true): video 2 below is
not linked to video 1's container via any stored correlation identifier,
yet attach transitions it to Enhanced without constructing its own
container. -/
theorem duplicate_check_matches_absent_ids :
    envShared.customId 2 = none ∧
    sA.containers.all (fun c => c.forVideo == none) = true ∧
    sA.containers.length = 1 ∧
    2 ∈ sB.enhanced ∧
    sB.containers = sA.containers ∧
    lookupCleanup sB 2 = none := by decide

/-- C5: the code violates the claim.  `cleanupMap` is a WeakMap and
ECMAScript WeakMap has no `forEach`, so the guard
`cleanupMap.forEach && …` short-circuits on `undefined`: with one video
enhanced (one teardown record held), `enhancedCount()` returns 0 instead
of 1, and `cleanupAll()` invokes no teardown action — the video stays
enhanced. -/
theorem debug_api_inert :
    sA.cleanups.length = 1 ∧
    enhancedCount sA = 0 ∧
    cleanupAll sA = sA ∧
    1 ∈ (cleanupAll sA).enhanced := by decide

theorem attachDescendants_stops (env : Env) (t : Nat) (ht : env.throws t = true) :
    ∀ (xs : List Nat), (∀ x ∈ xs, env.throws x = false) → ∀ (ys : List Nat) (s : St),
      attachDescendants env (xs ++ t :: ys) s =
        xs.foldl (fun st x => createControls env x st) s := by
  intro xs
  induction xs with
  | nil =>
    intro _ ys s
    simp [attachDescendants, createControlsE, ht]
  | cons x xs ih =>
    intro hxs ys s
    have hx : env.throws x = false := hxs x (List.mem_cons_self x xs)
    simp only [List.cons_append, attachDescendants, createControlsE, hx,
      Bool.false_eq_true, if_false, List.foldl_cons]
    exact ih (fun y hy => hxs y (List.mem_cons_of_mem x hy)) ys (createControls env x s)

/-- C3 (amended): fault isolation is per video in the initial full-page
scan — a throwing video is skipped and every remaining video of the scan
is still processed — and per inserted node in mutation batches: a node
whose processing throws does not prevent processing of the other nodes of
the batch, but inside one inserted element node a throw while attaching
one descendant video stops the forEach, so the later descendant videos of
that same node are not attached (counterexample to the claim as stated).
Conjunct one: the initial pass over a list with a throwing video equals
the pass with that video deleted.  Conjunct two: in a batch of an
inserted throwing video node followed by any node, the second node is
processed exactly as alone.  Conjunct three: within one inserted node,
descendant videos before the first throwing one are attached and the rest
are not. -/
theorem batch_fault_isolation :
    (∀ (env : Env) (xs ys : List Nat) (t : Nat) (s : St), env.throws t = true →
      initialPass env (xs ++ t :: ys) s = initialPass env (xs ++ ys) s) ∧
    (∀ (env : Env) (t : Nat) (n : DomNode) (s : St), env.throws t = true →
      processAddedNodes env [DomNode.videoNode t, n] s = processAddedNode env s n) ∧
    (∀ (env : Env) (xs ys : List Nat) (t : Nat) (s : St), env.throws t = true →
      (∀ x ∈ xs, env.throws x = false) →
      attachDescendants env (xs ++ t :: ys) s =
        xs.foldl (fun st x => createControls env x st) s) := by
  refine ⟨?_, ?_, ?_⟩
  · intro env xs ys t s ht
    simp [initialPass, List.foldl_append, createControlsE, ht]
  · intro env t n s ht
    simp [processAddedNodes, processAddedNode, createControlsE, ht]
  · intro env xs ys t s ht hxs
    exact attachDescendants_stops env t ht xs hxs ys s

theorem batch_fault_isolation_witness :
    initialPass envThrow [2, 1] emptySt = initialPass envThrow [2] emptySt ∧
    processAddedNodes envThrow [DomNode.videoNode 1, DomNode.videoNode 2] emptySt =
      processAddedNode envThrow emptySt (DomNode.videoNode 2) ∧
    attachDescendants envThrow [2, 1] emptySt =
      [2].foldl (fun st x => createControls envThrow x st) emptySt := by
  have h := batch_fault_isolation
  exact ⟨h.1 envThrow [2] [] 1 emptySt (by decide),
    h.2.1 envThrow 1 (DomNode.videoNode 2) emptySt (by decide),
    h.2.2 envThrow [2] [] 1 emptySt (by decide) (by decide)⟩

/-- C3 counterexample: in a mutation batch consisting of one inserted
element node holding two descendant videos, where attaching the first
throws and the second is perfectly attachable, the second video is NOT
attached — the observer's try/catch wraps the whole node, so the throw
aborts the forEach over sibling descendants, refuting per-video fault
isolation for descendants of the same inserted node. -/
theorem batch_fault_isolation_counterexample :
    envThrow.throws 1 = true ∧
    envThrow.throws 2 = false ∧
    2 ∈ (createControls envThrow 2 emptySt).enhanced ∧
    (processAddedNodes envThrow [DomNode.elemNode [1, 2]] emptySt).enhanced = [] := by
  decide
